import Mathlib

/-!
Shallow embedding of the llm-tech-docs-rag repository (a small retrieval-augmented
generation application) and proofs of its specified properties.

The embedding covers:
* `src/data_loader.py` (`DocumentLoader`): markdown ingestion with metadata tagging,
* `src/indexer.py` (`DocumentIndexer`): index lifecycle (load / create / get-or-create)
  and the one-time process-wide model configuration,
* `src/query_engine.py` (`SmartQueryEngine`): top-k retrieval, similarity-cutoff
  filtering, source formatting and confidence aggregation,
* `src/evaluator.py` (`RAGEvaluator`): keyword-overlap scoring.

Similarity scores are modelled as exact rationals (`ℚ`); Python exceptions are
modelled with `Except`: a function that can raise returns `Except String α`, a
`try/except SomeError` block is a `match` that turns exactly the modelled
`SomeError` outcomes back into normal results.  External effects (the embedding
model, the generative model, the vector store, the filesystem) enter the
definitions as explicit parameters, so every definition is executable.
-/

namespace RagSpec

/-- Raw text plus a metadata mapping, as produced by the markdown reader and
consumed by the indexer.  Metadata is an association list read through `metaGet`
(first binding wins), which models Python `dict.get` after updates. -/
structure Document where
  text : String
  metadata : List (String × String)
deriving DecidableEq

/-- Models Python `metadata.get(key, dflt)`: the first binding of `key` if any,
the default otherwise. -/
def metaGet (m : List (String × String)) (key dflt : String) : String :=
  match m.lookup key with
  | some v => v
  | none => dflt

/-- A retrieved chunk: its text, inherited metadata and the similarity score the
retriever assigned to it for the current question (llama_index `NodeWithScore`). -/
structure NodeWithScore where
  text : String
  metadata : List (String × String)
  score : ℚ
deriving DecidableEq

/-- One entry of the `sources` list of a query result.  The Python dict key
`"section"` is spelled `sect` here because `section` is a Lean keyword. -/
structure SourceEntry where
  content : String
  source : String
  score : ℚ
  sect : String
deriving DecidableEq

/-- The structured result of `SmartQueryEngine.query`. -/
structure QueryResult where
  answer : String
  sources : List SourceEntry
  confidence : ℚ
deriving DecidableEq

/-- The response object of the underlying llama_index query engine: the
synthesized answer plus the post-processed source nodes. -/
structure Response where
  answer : String
  source_nodes : List NodeWithScore
deriving DecidableEq

namespace SmartQueryEngine

/-- Translates the `similarity_top_k=5` configuration of `_setup_query_engine`. -/
def similarity_top_k : Nat := 5

/-- Translates the `similarity_cutoff=0.7` configuration of `_setup_query_engine`. -/
def similarity_cutoff : ℚ := 7 / 10

/-- Stable insertion of a node into a list that is ranked by descending score. -/
def insertByScore (n : NodeWithScore) : List NodeWithScore → List NodeWithScore
  | [] => [n]
  | m :: ms => if m.score < n.score then n :: m :: ms else m :: insertByScore n ms

/-- Ranks candidate nodes by descending similarity score (stable). -/
def rankByScore : List NodeWithScore → List NodeWithScore
  | [] => []
  | n :: ns => insertByScore n (rankByScore ns)

/-- Modelled from the spec: the llama_index `VectorIndexRetriever` configured with
`similarity_top_k=5` in `_setup_query_engine` is external library code; per the
spec it returns the top-k chunks of the index ranked by descending similarity to
the embedded question.  The index is given as the list of candidate nodes already
carrying their similarity scores for the current question. -/
def retrieve (index : List NodeWithScore) : List NodeWithScore :=
  (rankByScore index).take similarity_top_k

/-- Modelled from the spec: the llama_index `SimilarityPostprocessor` configured
with `similarity_cutoff=0.7` in `_setup_query_engine` is external library code;
per the spec it drops every retrieved chunk whose similarity score is below the
cutoff and keeps the surviving chunks in their retrieval order. -/
def similarityPostprocess (cutoff : ℚ) (nodes : List NodeWithScore) : List NodeWithScore :=
  nodes.filter (fun n => cutoff ≤ n.score)

/-- The source nodes surviving retrieval plus cutoff filtering for a given index. -/
def survivors (index : List NodeWithScore) : List NodeWithScore :=
  similarityPostprocess similarity_cutoff (retrieve index)

/-- Translates the call `self.query_engine.query(question)`: the llama_index
`RetrieverQueryEngine` embeds the question (which may fail), retrieves and
post-processes the nodes, and synthesizes an answer with the generative model
(which may also fail).  A failure of either external call is an exception,
modelled as `Except.error`. -/
def queryEngineQuery (index : List NodeWithScore) (embedQuestion : Except String Unit)
    (generate : List NodeWithScore → Except String String) : Except String Response :=
  match embedQuestion with
  | .error e => .error e
  | .ok _ =>
    match generate (survivors index) with
    | .error e => .error e
    | .ok ans => .ok { answer := ans, source_nodes := survivors index }

/-- Rounds a rational to 2 decimal places, as `round(avg_score, 2)` does. -/
def round2 (q : ℚ) : ℚ := ((round (q * 100) : ℤ) : ℚ) / 100

/-- Translates `SmartQueryEngine._calculate_confidence`: `0.0` when
`source_nodes` is empty, otherwise the mean score rounded to 2 decimals. -/
def calculate_confidence (source_nodes : List NodeWithScore) : ℚ :=
  if source_nodes.isEmpty then 0
  else round2 ((source_nodes.map (fun n => n.score)).sum / (source_nodes.length : ℚ))

/-- Translates the per-node dict built in the sources loop of
`SmartQueryEngine.query`. -/
def mkSourceEntry (n : NodeWithScore) : SourceEntry :=
  { content := n.text.take 200 ++ "..."
    source := metaGet n.metadata "source" "Unknown"
    score := n.score
    sect := metaGet n.metadata "section" "general" }

/-- Translates the result formatting of `SmartQueryEngine.query`: one sources
entry per source node (in order) and the computed confidence. -/
def formatResponse (resp : Response) : QueryResult :=
  { answer := resp.answer
    sources := resp.source_nodes.map mkSourceEntry
    confidence := calculate_confidence resp.source_nodes }

/-- Translates `SmartQueryEngine.query`.  The method has no exception handler,
so a failure of the underlying engine call propagates to the caller unchanged;
on success the response is formatted into a `QueryResult`. -/
def query (index : List NodeWithScore) (embedQuestion : Except String Unit)
    (generate : List NodeWithScore → Except String String) : Except String QueryResult :=
  match queryEngineQuery index embedQuestion generate with
  | .error e => .error e
  | .ok resp => .ok (formatResponse resp)

end SmartQueryEngine

namespace DocumentLoader

/-- Translates `DocumentLoader._extract_section`: the second-to-last component of
the file path when the path has more than two components, `"general"` otherwise.
A path is given by its `pathlib.Path.parts` list. -/
def extract_section (parts : List String) : String :=
  if 2 < parts.length then parts.getD (parts.length - 2) ""
  else "general"

/-- Outcome of `MarkdownReader().load_data(file)` on one file: the parsed
documents, an `IOError`, or an exception of any other class (for example a
`UnicodeDecodeError` on an undecodable file, which is not an `IOError`). -/
inductive FileOutcome where
  | ok (docs : List Document)
  | ioError (msg : String)
  | otherError (msg : String)
deriving DecidableEq

/-- Whether an outcome is an exception of a class other than `IOError`. -/
def FileOutcome.isOther : FileOutcome → Bool
  | .otherError _ => true
  | _ => false

/-- Renders a parts list back to the path string `str(md_file)`. -/
def pathString (parts : List String) : String := String.intercalate "/" parts

/-- Translates the `doc.metadata.update({...})` call of `load_documents`: the
`source`, `file_type` and `section` keys are (re)bound; prepending them makes
`metaGet` return the updated values. -/
def tagDoc (parts : List String) (d : Document) : Document :=
  { d with
    metadata :=
      [("source", pathString parts), ("file_type", "markdown"),
        ("section", extract_section parts)] ++ d.metadata }

/-- Translates `DocumentLoader.load_documents`.  The directory scan is given as
the list of found markdown files (path parts plus the reader outcome on that
file), in scan order.  The loop body is wrapped in `try ... except IOError`:
an `ioError` outcome is logged and skipped, but any other exception propagates
out of the method, because no other handler exists. -/
def load_documents : List (List String × FileOutcome) → Except String (List Document)
  | [] => .ok []
  | (parts, outcome) :: rest =>
    match outcome with
    | .ok docs =>
      match load_documents rest with
      | .error e => .error e
      | .ok ds => .ok (docs.map (tagDoc parts) ++ ds)
    | .ioError _ => load_documents rest
    | .otherError e => .error e

end DocumentLoader

namespace DocumentIndexer

/-- The process-wide llama_index `Settings` object: which LLM and which
embedding model are configured, if any. -/
structure LlamaSettings where
  llm : Option String
  embed_model : Option String
deriving DecidableEq

/-- The process state relevant to model configuration: the module-level
`_SETTINGS_CONFIGURED` flag plus the `Settings` object. -/
structure SettingsEnv where
  settingsConfigured : Bool
  settings : LlamaSettings
deriving DecidableEq

/-- Translates `DocumentIndexer._configure_settings`: when the module-level flag
is unset, set the LLM and the embedding model and raise the flag; otherwise do
nothing. -/
def configure_settings (env : SettingsEnv) : SettingsEnv :=
  if env.settingsConfigured then env
  else
    { settingsConfigured := true
      settings :=
        { llm := some "gpt-4o-mini"
          embed_model := some "BAAI/bge-small-en-v1.5" } }

/-- Translates `DocumentIndexer.index_exists`: the manifest file
`index_store.json` exists under the persistence directory.  The filesystem is
given as the list of existing file paths. -/
def index_exists (existingFiles : List String) (persist_dir : String) : Bool :=
  existingFiles.contains (persist_dir ++ "/index_store.json")

/-- Translates `DocumentIndexer.load_existing_index`.  The external sequence of
opening the chroma collection and rehydrating the index from storage is given as
`openIndex` (its exception, if it raises, as `Except.error`).  No manifest gives
`none`; the `try ... except Exception` block turns every failure of the open
sequence into `none` as well, so the method itself never raises. -/
def load_existing_index {ι : Type} (existingFiles : List String) (persist_dir : String)
    (openIndex : Except String ι) : Except String (Option ι) :=
  if !index_exists existingFiles persist_dir then .ok none
  else
    match openIndex with
    | .ok index => .ok (some index)
    | .error _ => .ok none

/-- Observable steps of `get_or_create_index`, used to state that the
configuration error is raised before any index-building work. -/
inductive IndexAction where
  | loadAttempt
  | buildWork
deriving DecidableEq

/-- Translates `DocumentIndexer.get_or_create_index`, paired with the list of
actions it performs: try `load_existing_index` first; if that yields an index
return it; otherwise raise `ValueError` when `documents` is `None`, and build
via `create_new_index` when documents are provided.  Building is abstracted by
the `create_new_index` parameter. -/
def get_or_create_index {ι δ : Type} (existingFiles : List String) (persist_dir : String)
    (openIndex : Except String ι) (documents : Option δ) (create_new_index : δ → ι) :
    Except String ι × List IndexAction :=
  match load_existing_index existingFiles persist_dir openIndex with
  | .error e => (.error e, [.loadAttempt])
  | .ok (some index) => (.ok index, [.loadAttempt])
  | .ok none =>
    match documents with
    | none =>
      (.error ("No existing index found and no documents provided. " ++
        "Please provide documents to create a new index."), [.loadAttempt])
    | some docs => (.ok (create_new_index docs), [.loadAttempt, .buildWork])

end DocumentIndexer

namespace RAGEvaluator

/-- One evaluation case: a question and the keywords expected in a good answer. -/
structure TestCase where
  question : String
  expected_keywords : List String
deriving DecidableEq

/-- The response dict the query engine hands back to the evaluator. -/
structure QEResponse where
  answer : String
  confidence : ℚ
  sources : List SourceEntry
deriving DecidableEq

/-- One result dict of `evaluate_answers`. -/
structure EvalResult where
  question : String
  answer : String
  confidence : ℚ
  keyword_score : ℚ
  sources_count : Nat
deriving DecidableEq

/-- Models Python `needle in hay` on strings at the character-list level:
`needle` occurs as a contiguous substring of `hay`. -/
def containsSub (hay needle : List Char) : Bool :=
  needle.isPrefixOf hay ||
    match hay with
    | [] => false
    | _ :: t => containsSub t needle

/-- Models Python `s.lower()` (ASCII case folding suffices for the embedding). -/
def lowerStr (s : String) : String := ⟨s.data.map Char.toLower⟩

/-- Translates the generator-sum in `evaluate_answers`: how many expected
keywords occur (case-insensitively) in the lowered answer text. -/
def keyword_matches (answer_text : String) (kws : List String) : Nat :=
  (kws.filter (fun kw => containsSub answer_text.data (lowerStr kw).data)).length

/-- Translates `RAGEvaluator.evaluate_answers`.  The query engine is a total
function here (its own failure modes are covered by the query-pipeline model).
The division `keyword_matches / len(case["expected_keywords"])` has no guard: on
an empty keyword list Python raises `ZeroDivisionError`, modelled as
`Except.error`, which aborts the whole evaluation. -/
def evaluate_answers (queryEngine : String → QEResponse) :
    List TestCase → Except String (List EvalResult)
  | [] => .ok []
  | c :: rest =>
    let response := queryEngine c.question
    let answer_text := lowerStr response.answer
    if c.expected_keywords.length = 0 then
      .error "ZeroDivisionError: division by zero"
    else
      match evaluate_answers queryEngine rest with
      | .error e => .error e
      | .ok results =>
        .ok
          ({ question := c.question
             answer := response.answer
             confidence := response.confidence
             keyword_score :=
               (keyword_matches answer_text c.expected_keywords : ℚ) /
                 (c.expected_keywords.length : ℚ)
             sources_count := response.sources.length } :: results)

end RAGEvaluator

/-! Concrete sample inputs used by the witness theorems. -/

/-- Sample chunk whose score passes the 0.7 cutoff. -/
def nodeA : NodeWithScore :=
  { text := "FastAPI route definitions use decorators."
    metadata := [("source", "data/raw/fastapi_docs/guides/routes.md"), ("section", "guides")]
    score := 4 / 5 }

/-- Sample chunk whose score is below the 0.7 cutoff. -/
def nodeB : NodeWithScore :=
  { text := "Completely unrelated text."
    metadata := []
    score := 1 / 2 }

/-- Sample index holding one passing and one failing chunk. -/
def sampleIndex : List NodeWithScore := [nodeA, nodeB]

/-- Sample generative call that succeeds. -/
def sampleGenerate : List NodeWithScore → Except String String :=
  fun _ => .ok "Use @app.get to define a GET route."

/-- Sample generative call that fails. -/
def failGenerate : List NodeWithScore → Except String String :=
  fun _ => .error "quota exceeded"

/-- The query result produced on `sampleIndex` with `sampleGenerate`. -/
def sampleResult : QueryResult :=
  SmartQueryEngine.formatResponse
    { answer := "Use @app.get to define a GET route."
      source_nodes := SmartQueryEngine.survivors sampleIndex }

/-- Sample index-building function standing in for `create_new_index`. -/
def sampleBuild : List Document → Nat := fun ds => ds.length

/-- Sample query engine handed to the evaluator. -/
def sampleEngine : String → RAGEvaluator.QEResponse :=
  fun _ => { answer := "FastAPI apps run under uvicorn.", confidence := 9 / 10, sources := [] }

/-! Helper lemmas about the query pipeline. -/

open SmartQueryEngine

/-- The surviving nodes are an order-preserving subsequence of the retrieval. -/
theorem survivors_sublist (index : List NodeWithScore) :
    List.Sublist (survivors index) (retrieve index) :=
  List.filter_sublist _

/-- Retrieval returns at most `similarity_top_k = 5` nodes. -/
theorem retrieve_length_le (index : List NodeWithScore) :
    (retrieve index).length ≤ 5 := by
  unfold retrieve similarity_top_k
  simp [List.length_take]

/-- At most 5 nodes survive retrieval plus filtering. -/
theorem survivors_length_le (index : List NodeWithScore) :
    (survivors index).length ≤ 5 :=
  le_trans (List.Sublist.length_le (survivors_sublist index)) (retrieve_length_le index)

/-- Every surviving node scores at least the cutoff `0.7`. -/
theorem mem_survivors_score {index : List NodeWithScore} {n : NodeWithScore}
    (h : n ∈ survivors index) : 7 / 10 ≤ n.score := by
  unfold survivors similarityPostprocess similarity_cutoff at h
  simp only [List.mem_filter, decide_eq_true_eq] at h
  exact h.2

/-- Inversion of a successful `SmartQueryEngine.query` call: both external
calls succeeded and the result is the formatted response. -/
theorem query_ok_elim {index : List NodeWithScore} {embedQuestion : Except String Unit}
    {generate : List NodeWithScore → Except String String} {r : QueryResult}
    (h : query index embedQuestion generate = .ok r) :
    ∃ a, generate (survivors index) = .ok a ∧ embedQuestion = .ok () ∧
      r = formatResponse { answer := a, source_nodes := survivors index } := by
  unfold query queryEngineQuery at h
  cases hE : embedQuestion with
  | error e => rw [hE] at h; simp at h
  | ok u =>
    cases u
    rw [hE] at h
    cases hG : generate (survivors index) with
    | error e => rw [hG] at h; simp at h
    | ok a =>
      rw [hG] at h
      simp only [Except.ok.injEq] at h
      exact ⟨a, rfl, rfl, h.symm⟩

/-- A lower bound shared by all list entries bounds the sum from below. -/
theorem list_sum_ge (c : ℚ) :
    ∀ l : List ℚ, (∀ x ∈ l, c ≤ x) → c * (l.length : ℚ) ≤ l.sum := by
  intro l
  induction l with
  | nil => intro _; simp
  | cons a t ih =>
    intro h
    have ha := h a (by simp)
    have ht := ih (fun x hx => h x (by simp [hx]))
    simp only [List.sum_cons, List.length_cons]
    push_cast
    nlinarith [ht, ha]

/-- Closed formula for `calculate_confidence` over plain list emptiness. -/
theorem confidence_formula (ns : List NodeWithScore) :
    calculate_confidence ns =
      if ns = [] then 0
      else round2 ((ns.map (fun n => n.score)).sum / (ns.length : ℚ)) := by
  cases ns with
  | nil => rfl
  | cons a t => simp [calculate_confidence]

/-- Rounding with `round2` keeps values at or above `0.7` at or above `0.7`. -/
theorem round2_ge {q : ℚ} (h : 7 / 10 ≤ q) : 7 / 10 ≤ round2 q := by
  have h70 : (70 : ℤ) ≤ round (q * 100) := by
    rw [round_eq, Int.le_floor]
    push_cast
    linarith
  unfold round2
  rw [le_div_iff₀ (by norm_num : (0 : ℚ) < 100)]
  have hc : ((70 : ℤ) : ℚ) ≤ ((round (q * 100) : ℤ) : ℚ) := by exact_mod_cast h70
  push_cast at hc
  linarith

/-- Confidence over a non-empty node list with all scores at the cutoff or
above is itself at the cutoff or above. -/
theorem confidence_pos {ns : List NodeWithScore} (hne : ns ≠ [])
    (h : ∀ n ∈ ns, 7 / 10 ≤ n.score) : 7 / 10 ≤ calculate_confidence ns := by
  have hlen : 0 < (ns.length : ℚ) := by exact_mod_cast List.length_pos.mpr hne
  have hsum := list_sum_ge (7 / 10) (ns.map (fun n => n.score)) ?side
  case side =>
    intro x hx
    simp only [List.mem_map] at hx
    obtain ⟨n, hn, rfl⟩ := hx
    exact h n hn
  have hmean : 7 / 10 ≤ (ns.map (fun n => n.score)).sum / (ns.length : ℚ) := by
    rw [le_div_iff₀ hlen]
    simpa [List.length_map] using hsum
  rw [confidence_formula, if_neg hne]
  exact round2_ge hmean

/-- The surviving nodes of the sample index: only the passing chunk remains. -/
theorem survivors_sample : survivors sampleIndex = [nodeA] := by
  norm_num [survivors, retrieve, similarityPostprocess, similarity_cutoff,
    similarity_top_k, rankByScore, insertByScore, sampleIndex, nodeA, nodeB,
    List.filter]

/-! Claim theorems. -/

/-- C1: for every query result returned by `SmartQueryEngine.query`, the
`confidence` field equals the arithmetic mean of the sources entries'
similarity scores rounded to 2 decimal places, and `confidence == 0.0` holds
if and only if the `sources` sequence is empty. -/
theorem C1_confidence_rounded_mean_and_zero_iff_empty
    (index : List NodeWithScore) (embedQuestion : Except String Unit)
    (generate : List NodeWithScore → Except String String) (r : QueryResult)
    (h : query index embedQuestion generate = .ok r) :
    r.confidence =
      (if r.sources = [] then 0
       else round2 ((r.sources.map (fun s => s.score)).sum / (r.sources.length : ℚ)))
    ∧ (r.confidence = 0 ↔ r.sources = []) := by
  obtain ⟨a, hG, hE, rfl⟩ := query_ok_elim h
  have hsources :
      (formatResponse { answer := a, source_nodes := survivors index }).sources =
        (survivors index).map mkSourceEntry := rfl
  have hconf :
      (formatResponse { answer := a, source_nodes := survivors index }).confidence =
        calculate_confidence (survivors index) := rfl
  have hscores :
      ((survivors index).map mkSourceEntry).map (fun s => s.score) =
        (survivors index).map (fun n => n.score) := by
    simp [List.map_map, mkSourceEntry, Function.comp]
  rw [hconf, hsources, hscores, List.length_map]
  by_cases hc : survivors index = []
  · simp [hc, calculate_confidence]
  · have h7 : ∀ n ∈ survivors index, 7 / 10 ≤ n.score := fun n hn => mem_survivors_score hn
    have hpos := confidence_pos hc h7
    constructor
    · rw [if_neg (show ¬List.map mkSourceEntry (survivors index) = [] by simp [hc]),
        confidence_formula, if_neg hc]
    · constructor
      · intro h0
        rw [h0] at hpos
        norm_num at hpos
      · intro hcon
        rw [List.map_eq_nil_iff] at hcon
        exact absurd hcon hc

/-- C1 witness: the theorem applied to the sample index, where the hypothesis
holds by computation. -/
theorem C1_confidence_witness :
    sampleResult.confidence = 0 ↔ sampleResult.sources = [] :=
  (C1_confidence_rounded_mean_and_zero_iff_empty sampleIndex (.ok ())
    sampleGenerate sampleResult rfl).2

/-- C2: for every question, the `sources` returned by `SmartQueryEngine.query`
have length at most 5 (the fixed top-k) and every entry's score is at least the
fixed cutoff `0.7`; the chunks below the cutoff are dropped while the chunks
above it keep their retrieval rank (the surviving list is the filter of the
retrieval, an order-preserving subsequence of it). -/
theorem C2_topk_bound_and_cutoff
    (index : List NodeWithScore) (embedQuestion : Except String Unit)
    (generate : List NodeWithScore → Except String String) (r : QueryResult)
    (h : query index embedQuestion generate = .ok r) :
    r.sources.length ≤ 5
    ∧ (∀ s ∈ r.sources, 7 / 10 ≤ s.score)
    ∧ r.sources =
        ((retrieve index).filter (fun n => 7 / 10 ≤ n.score)).map mkSourceEntry
    ∧ List.Sublist ((retrieve index).filter (fun n => 7 / 10 ≤ n.score))
        (retrieve index) := by
  obtain ⟨a, hG, hE, rfl⟩ := query_ok_elim h
  refine ⟨?_, ?_, rfl, List.filter_sublist _⟩
  · show ((survivors index).map mkSourceEntry).length ≤ 5
    rw [List.length_map]
    exact survivors_length_le index
  · intro s hs
    have hs2 : s ∈ (survivors index).map mkSourceEntry := hs
    obtain ⟨n, hn, rfl⟩ := List.mem_map.mp hs2
    exact mem_survivors_score hn

/-- C2 witness: the top-k bound at the sample index, where the hypothesis
holds by computation. -/
theorem C2_topk_witness : sampleResult.sources.length ≤ 5 :=
  (C2_topk_bound_and_cutoff sampleIndex (.ok ()) sampleGenerate sampleResult rfl).1

/-- C3: for every surviving chunk, in retrieval rank order, the query emits a
sources entry whose content is the first 200 characters of the chunk text plus
an ellipsis marker, whose source is the chunk's `source` metadata or
`"Unknown"`, whose section is the chunk's `section` metadata or `"general"`,
and whose score is the chunk's similarity score. -/
theorem C3_source_entries_shape
    (index : List NodeWithScore) (embedQuestion : Except String Unit)
    (generate : List NodeWithScore → Except String String) (r : QueryResult)
    (h : query index embedQuestion generate = .ok r) :
    r.sources =
      (survivors index).map (fun n =>
        { content := n.text.take 200 ++ "..."
          source := metaGet n.metadata "source" "Unknown"
          score := n.score
          sect := metaGet n.metadata "section" "general" }) := by
  obtain ⟨a, hG, hE, rfl⟩ := query_ok_elim h
  rfl

/-- C3 witness: the concrete sources list of the sample query. -/
theorem C3_source_entries_witness :
    sampleResult.sources = [mkSourceEntry nodeA] := by
  rw [C3_source_entries_shape sampleIndex (.ok ()) sampleGenerate sampleResult rfl,
    survivors_sample]
  rfl

/-- C8: a failure of the embedding call or of the generative call made inside
`SmartQueryEngine.query` propagates to the caller as an error; `query` returns
a normal result only when both external calls succeeded, so a pipeline failure
is always distinguishable from the valid zero-sources result. -/
theorem C8_pipeline_failure_propagates (index : List NodeWithScore)
    (generate : List NodeWithScore → Except String String) :
    (∀ e, query index (.error e) generate = .error e)
    ∧ (∀ e, generate (survivors index) = .error e →
        query index (.ok ()) generate = .error e)
    ∧ (∀ embedQuestion r, query index embedQuestion generate = .ok r →
        embedQuestion = .ok () ∧
          ∃ a, generate (survivors index) = .ok a ∧ r.answer = a) := by
  refine ⟨fun e => rfl, fun e hg => ?_, fun embedQuestion r h => ?_⟩
  · simp [query, queryEngineQuery, hg]
  · obtain ⟨a, hG, hE, rfl⟩ := query_ok_elim h
    exact ⟨hE, a, hG, rfl⟩

/-- C8 witness: a failing generative call on the sample index propagates as
the query error. -/
theorem C8_failure_witness :
    query sampleIndex (.ok ()) failGenerate = .error "quota exceeded" :=
  (C8_pipeline_failure_propagates sampleIndex failGenerate).2.1 "quota exceeded" rfl

/-! Document loader lemmas and claims. -/

/-- When no file fails with a non-`IOError` exception, `load_documents`
returns normally. -/
theorem load_documents_ok_of_no_other :
    ∀ files : List (List String × DocumentLoader.FileOutcome),
      (∀ f ∈ files, DocumentLoader.FileOutcome.isOther f.2 = false) →
        ∃ ds, DocumentLoader.load_documents files = .ok ds := by
  intro files
  induction files with
  | nil => intro _; exact ⟨[], rfl⟩
  | cons f rest ih =>
    intro h
    obtain ⟨parts, o⟩ := f
    obtain ⟨ds, hds⟩ := ih (fun g hg => h g (List.mem_cons_of_mem _ hg))
    cases o with
    | ok docs =>
      exact ⟨docs.map (DocumentLoader.tagDoc parts) ++ ds, by
        simp [DocumentLoader.load_documents, hds]⟩
    | ioError msg => exact ⟨ds, by simpa [DocumentLoader.load_documents] using hds⟩
    | otherError e =>
      have hfalse := h (parts, .otherError e) (List.mem_cons_self _ _)
      simp [DocumentLoader.FileOutcome.isOther] at hfalse

/-- C4 counterexample: a single bad file whose failure is not an `IOError`
(here a decode error, as raised for an undecodable markdown file) makes
`load_documents` raise instead of logging and skipping, so the method does not
return the successfully loaded documents. -/
theorem C4_counterexample :
    DocumentLoader.load_documents
        [(["docs", "bad.md"], .otherError "UnicodeDecodeError: invalid start byte")] =
      .error "UnicodeDecodeError: invalid start byte" := rfl

/-- C4 amended: `load_documents` never raises because of a single unreadable
file whose failure is an `IOError`: such a file is logged and skipped, every
other file is still processed, and when no file fails with an exception of any
other class the method returns the sequence of successfully loaded documents
(possibly empty); a non-`IOError` failure such as a decode or parse error,
however, propagates to the caller. -/
theorem C4_amended_only_ioerror_is_skipped
    (files : List (List String × DocumentLoader.FileOutcome))
    (h : ∀ f ∈ files, DocumentLoader.FileOutcome.isOther f.2 = false) :
    (∃ ds, DocumentLoader.load_documents files = .ok ds)
    ∧ (∀ parts msg rest,
        DocumentLoader.load_documents ((parts, .ioError msg) :: rest) =
          DocumentLoader.load_documents rest)
    ∧ (∀ parts docs rest ds,
        DocumentLoader.load_documents rest = .ok ds →
          DocumentLoader.load_documents ((parts, .ok docs) :: rest) =
            .ok (docs.map (DocumentLoader.tagDoc parts) ++ ds)) := by
  refine ⟨load_documents_ok_of_no_other files h, fun parts msg rest => rfl,
    fun parts docs rest ds hds => ?_⟩
  simp [DocumentLoader.load_documents, hds]

/-- C4 witness: a concrete scan where the unreadable file (an `IOError`) is
skipped and loading continues with the remaining files. -/
theorem C4_amended_witness :
    DocumentLoader.load_documents
        [(["docs", "bad.md"], .ioError "Permission denied"),
         (["docs", "b.md"], .ok [{ text := "B", metadata := [] }])] =
      DocumentLoader.load_documents
        [(["docs", "b.md"], .ok [{ text := "B", metadata := [] }])] :=
  (C4_amended_only_ioerror_is_skipped
      [(["docs", "bad.md"], .ioError "Permission denied"),
       (["docs", "b.md"], .ok [{ text := "B", metadata := [] }])]
      (by decide)).2.1
    ["docs", "bad.md"] "Permission denied"
    [(["docs", "b.md"], .ok [{ text := "B", metadata := [] }])]

/-- Indexing an appended pair at the length of the prefix yields the first
appended element. -/
theorem getD_append_self (l : List String) (x y : String) :
    (l ++ [x, y]).getD l.length "" = x := by
  induction l with
  | nil => rfl
  | cons a t ih => simpa using ih

/-- Indexing one position before a singleton append yields the last element of
the prefix. -/
theorem getD_append_last (l : List String) (x : String) (h : 1 ≤ l.length) :
    (l ++ [x]).getD (l.length - 1) "" = (l.getLast?).getD "" := by
  induction l with
  | nil => simp at h
  | cons a t ih =>
    cases t with
    | nil => rfl
    | cons b u =>
      have hrec := ih (by simp)
      have hidx : (a :: b :: u).length - 1 = (b :: u).length - 1 + 1 := by
        simp only [List.length_cons]
        omega
      rw [List.cons_append, hidx, List.getD_cons_succ, hrec, List.getLast?_cons_cons]

/-- C5 counterexample: with root directory `data/raw` (two path components),
the loaded file `data/raw/intro.md` — which has fewer than two path components
beyond the root — is tagged with section `"raw"`, not `"general"`. -/
theorem C5_counterexample :
    DocumentLoader.load_documents
        [(["data", "raw", "intro.md"], .ok [{ text := "Intro", metadata := [] }])] =
      .ok [{ text := "Intro"
             metadata := [("source", "data/raw/intro.md"), ("file_type", "markdown"),
                          ("section", "raw")] }]
    ∧ ("raw" : String) ≠ "general" := ⟨rfl, by decide⟩

/-- C5 amended: the section tag depends on the file's full path, not on its
position relative to the root: it is the second-to-last path component when the
full path has more than two components and `"general"` otherwise.  Hence
`root/guides/intro.md` is tagged `"guides"` whenever the root has at least one
path component, `root/intro.md` is tagged `"general"` when the root has at most
one component, and for roots with two or more components `root/intro.md` is
tagged with the root's last directory name instead of `"general"`. -/
theorem C5_amended_section_from_full_path (rootParts : List String) :
    (1 ≤ rootParts.length →
      DocumentLoader.extract_section (rootParts ++ ["guides", "intro.md"]) = "guides")
    ∧ (rootParts.length ≤ 1 →
      DocumentLoader.extract_section (rootParts ++ ["intro.md"]) = "general")
    ∧ (2 ≤ rootParts.length →
      DocumentLoader.extract_section (rootParts ++ ["intro.md"]) =
        (rootParts.getLast?).getD "") := by
  refine ⟨?_, ?_, ?_⟩
  · intro h
    cases rootParts with
    | nil => simp at h
    | cons a t =>
      show DocumentLoader.extract_section (a :: (t ++ ["guides", "intro.md"])) = "guides"
      unfold DocumentLoader.extract_section
      rw [if_pos (by simp only [List.length_cons, List.length_append, List.length_nil]; omega)]
      have hidx : (a :: (t ++ ["guides", "intro.md"])).length - 2 = t.length + 1 := by
        simp only [List.length_cons, List.length_append, List.length_nil]
        omega
      rw [hidx, List.getD_cons_succ]
      exact getD_append_self t "guides" "intro.md"
  · intro h
    cases rootParts with
    | nil => rfl
    | cons a t =>
      cases t with
      | nil => rfl
      | cons b u => simp at h
  · intro h
    cases rootParts with
    | nil => simp at h
    | cons a t =>
      cases t with
      | nil => simp at h
      | cons b u =>
        show DocumentLoader.extract_section (a :: ((b :: u) ++ ["intro.md"])) = _
        unfold DocumentLoader.extract_section
        rw [if_pos (by simp only [List.length_cons, List.length_append, List.length_nil]; omega)]
        have hidx :
            (a :: ((b :: u) ++ ["intro.md"])).length - 2 = (b :: u).length - 1 + 1 := by
          simp only [List.length_cons, List.length_append, List.length_nil]
          omega
        rw [hidx, List.getD_cons_succ, getD_append_last (b :: u) "intro.md" (by simp),
          List.getLast?_cons_cons]

/-- C5 witness: at the two-component root `data/raw` the amended claim tags
`data/raw/intro.md` with the root's last directory name `"raw"`. -/
theorem C5_amended_witness :
    DocumentLoader.extract_section (["data", "raw"] ++ ["intro.md"]) = "raw" := by
  rw [(C5_amended_section_from_full_path ["data", "raw"]).2.2 (by decide)]
  rfl

/-! Indexer lemmas and claims. -/

/-- The call `load_existing_index` yields `.ok none` when the manifest is missing or
when the open-and-rehydrate sequence fails. -/
theorem load_existing_index_none {ι : Type} (existingFiles : List String)
    (persist_dir : String) (openIndex : Except String ι)
    (h : DocumentIndexer.index_exists existingFiles persist_dir = false ∨
      ∃ e, openIndex = .error e) :
    DocumentIndexer.load_existing_index existingFiles persist_dir openIndex = .ok none := by
  cases hb : DocumentIndexer.index_exists existingFiles persist_dir with
  | false => simp [DocumentIndexer.load_existing_index, hb]
  | true =>
    rcases h with h | ⟨e, he⟩
    · exact absurd h (by simp [hb])
    · simp [DocumentIndexer.load_existing_index, hb, he]

/-- C7: `load_existing_index` never raises: it returns a normal result on
every input; when no persisted manifest is present it returns absent, and when
the open or rehydrate step fails (missing collection, corrupt manifest, schema
mismatch) it also returns absent, leaving the rebuild decision to the caller. -/
theorem C7_load_existing_never_raises {ι : Type} (existingFiles : List String)
    (persist_dir : String) (openIndex : Except String ι) :
    (∃ r, DocumentIndexer.load_existing_index existingFiles persist_dir openIndex = .ok r)
    ∧ (DocumentIndexer.index_exists existingFiles persist_dir = false →
        DocumentIndexer.load_existing_index existingFiles persist_dir openIndex = .ok none)
    ∧ (∀ e, openIndex = .error e →
        DocumentIndexer.load_existing_index existingFiles persist_dir openIndex =
          .ok none) := by
  refine ⟨?_, fun h => load_existing_index_none _ _ _ (Or.inl h),
    fun e he => load_existing_index_none _ _ _ (Or.inr ⟨e, he⟩)⟩
  cases hb : DocumentIndexer.index_exists existingFiles persist_dir with
  | false => exact ⟨none, by simp [DocumentIndexer.load_existing_index, hb]⟩
  | true =>
    cases openIndex with
    | ok i => exact ⟨some i, by simp [DocumentIndexer.load_existing_index, hb]⟩
    | error e => exact ⟨none, by simp [DocumentIndexer.load_existing_index, hb]⟩

/-- C7 witness: a present manifest with a corrupt store still yields absent,
not an exception. -/
theorem C7_load_witness :
    DocumentIndexer.load_existing_index ["./storage/index_store.json"] "./storage"
        (.error "corrupt collection" : Except String Nat) = .ok none :=
  (C7_load_existing_never_raises ["./storage/index_store.json"] "./storage"
    (.error "corrupt collection" : Except String Nat)).2.2 "corrupt collection" rfl

/-- C6: when `get_or_create_index` is called with documents absent and no
existing index can be loaded (fresh persistence location or failed load), it
raises the configuration `ValueError` — not a null result — with no
index-building work in its action trace; when documents are provided it
instead builds via `create_new_index`. -/
theorem C6_get_or_create_config_error {ι δ : Type} (existingFiles : List String)
    (persist_dir : String) (openIndex : Except String ι) (create_new_index : δ → ι)
    (h : DocumentIndexer.index_exists existingFiles persist_dir = false ∨
      ∃ e, openIndex = .error e) :
    DocumentIndexer.get_or_create_index existingFiles persist_dir openIndex
        (none : Option δ) create_new_index =
      (.error ("No existing index found and no documents provided. " ++
        "Please provide documents to create a new index."), [.loadAttempt])
    ∧ (∀ docs : δ,
        DocumentIndexer.get_or_create_index existingFiles persist_dir openIndex
            (some docs) create_new_index =
          (.ok (create_new_index docs), [.loadAttempt, .buildWork])) := by
  have hload := load_existing_index_none existingFiles persist_dir openIndex h
  constructor
  · unfold DocumentIndexer.get_or_create_index
    rw [hload]
  · intro docs
    unfold DocumentIndexer.get_or_create_index
    rw [hload]

/-- C6 witness: a fresh persistence location with no documents raises the
configuration error, with only the load attempt in the action trace. -/
theorem C6_config_error_witness :
    DocumentIndexer.get_or_create_index [] "./storage"
        (.error "no collection" : Except String Nat) (none : Option (List Document))
        sampleBuild =
      (.error ("No existing index found and no documents provided. " ++
        "Please provide documents to create a new index."), [.loadAttempt]) :=
  (C6_get_or_create_config_error [] "./storage"
    (.error "no collection" : Except String Nat) sampleBuild (Or.inl rfl)).1

/-- C9: model configuration happens at most once per process: from an
unconfigured state one invocation sets the process-wide models and raises the
flag, any invocation on an already configured state is a no-op that leaves the
settings unchanged, and re-invocation is idempotent. -/
theorem C9_configure_settings_once (env : DocumentIndexer.SettingsEnv) :
    DocumentIndexer.configure_settings
        { settingsConfigured := false, settings := env.settings } =
      { settingsConfigured := true
        settings := { llm := some "gpt-4o-mini"
                      embed_model := some "BAAI/bge-small-en-v1.5" } }
    ∧ (DocumentIndexer.configure_settings env).settingsConfigured = true
    ∧ (env.settingsConfigured = true → DocumentIndexer.configure_settings env = env)
    ∧ DocumentIndexer.configure_settings (DocumentIndexer.configure_settings env) =
        DocumentIndexer.configure_settings env := by
  refine ⟨rfl, ?_, ?_, ?_⟩
  · cases hb : env.settingsConfigured <;>
      simp [DocumentIndexer.configure_settings, hb]
  · intro hcfg
    simp [DocumentIndexer.configure_settings, hcfg]
  · cases hb : env.settingsConfigured <;>
      simp [DocumentIndexer.configure_settings, hb]

/-- C9 witness: a second invocation on a configured state changes nothing. -/
theorem C9_configure_witness :
    DocumentIndexer.configure_settings
        { settingsConfigured := true
          settings := { llm := some "gpt-4o-mini"
                        embed_model := some "BAAI/bge-small-en-v1.5" } } =
      { settingsConfigured := true
        settings := { llm := some "gpt-4o-mini"
                      embed_model := some "BAAI/bge-small-en-v1.5" } } :=
  (C9_configure_settings_once
      { settingsConfigured := true
        settings := { llm := some "gpt-4o-mini"
                      embed_model := some "BAAI/bge-small-en-v1.5" } }).2.2.1 rfl

/-! Evaluator lemmas and claim. -/

/-- The call `evaluate_answers` returns normally exactly when every case has a
non-empty keyword list. -/
theorem evaluate_answers_ok_iff (queryEngine : String → RAGEvaluator.QEResponse) :
    ∀ testCases : List RAGEvaluator.TestCase,
      (∃ rs, RAGEvaluator.evaluate_answers queryEngine testCases = .ok rs) ↔
        ∀ c ∈ testCases, c.expected_keywords ≠ [] := by
  intro testCases
  induction testCases with
  | nil =>
    constructor
    · intro _ c hc
      cases hc
    · intro _
      exact ⟨[], rfl⟩
  | cons c rest ih =>
    by_cases hkw : c.expected_keywords = []
    · have hlen : c.expected_keywords.length = 0 := by simp [hkw]
      constructor
      · rintro ⟨rs, hrs⟩
        simp [RAGEvaluator.evaluate_answers, hlen] at hrs
      · intro hall
        exact absurd hkw (hall c (List.mem_cons_self _ _))
    · have hlen : ¬c.expected_keywords.length = 0 := by
        simpa [List.length_eq_zero] using hkw
      constructor
      · rintro ⟨rs, hrs⟩
        rw [List.forall_mem_cons]
        refine ⟨hkw, ih.mp ?_⟩
        revert hrs
        simp only [RAGEvaluator.evaluate_answers, if_neg hlen]
        cases hrest : RAGEvaluator.evaluate_answers queryEngine rest with
        | error e =>
          intro hrs
          simp at hrs
        | ok rs2 =>
          intro _
          exact ⟨rs2, rfl⟩
      · intro hall
        obtain ⟨rs2, hrs2⟩ := ih.mpr (fun d hd => hall d (List.mem_cons_of_mem _ hd))
        cases hres : RAGEvaluator.evaluate_answers queryEngine (c :: rest) with
        | ok rs => exact ⟨rs, rfl⟩
        | error e =>
          simp [RAGEvaluator.evaluate_answers, hlen, hkw, hrs2] at hres

/-- A case with an empty keyword list makes the evaluation raise the division
error. -/
theorem evaluate_answers_error_of_empty (queryEngine : String → RAGEvaluator.QEResponse) :
    ∀ testCases : List RAGEvaluator.TestCase,
      (∃ c ∈ testCases, c.expected_keywords = []) →
        RAGEvaluator.evaluate_answers queryEngine testCases =
          .error "ZeroDivisionError: division by zero" := by
  intro testCases
  induction testCases with
  | nil =>
    rintro ⟨c, hc, _⟩
    cases hc
  | cons c rest ih =>
    rintro ⟨d, hd, hdkw⟩
    rcases List.mem_cons.mp hd with rfl | hd2
    · have hlen : d.expected_keywords.length = 0 := by simp [hdkw]
      simp [RAGEvaluator.evaluate_answers, hlen]
    · by_cases hkw : c.expected_keywords = []
      · have hlen : c.expected_keywords.length = 0 := by simp [hkw]
        simp [RAGEvaluator.evaluate_answers, hlen]
      · have hlen : ¬c.expected_keywords.length = 0 := by
          simpa [List.length_eq_zero] using hkw
        have hrest := ih ⟨d, hd2, hdkw⟩
        simp [RAGEvaluator.evaluate_answers, if_neg hlen, hrest]

/-- C10: `evaluate_answers` divides by the number of expected keywords without
a guard: it returns normally exactly when every test case has a non-empty
`expected_keywords` list, and any test case with an empty list makes the whole
evaluation raise `ZeroDivisionError`, so non-empty keyword lists are a
precondition for a normal return. -/
theorem C10_keyword_score_division_unguarded
    (queryEngine : String → RAGEvaluator.QEResponse)
    (testCases : List RAGEvaluator.TestCase) :
    ((∃ rs, RAGEvaluator.evaluate_answers queryEngine testCases = .ok rs) ↔
      ∀ c ∈ testCases, c.expected_keywords ≠ [])
    ∧ ((∃ c ∈ testCases, c.expected_keywords = []) →
        RAGEvaluator.evaluate_answers queryEngine testCases =
          .error "ZeroDivisionError: division by zero") :=
  ⟨evaluate_answers_ok_iff queryEngine testCases,
    evaluate_answers_error_of_empty queryEngine testCases⟩

/-- C10 witness: one concrete test case with an empty keyword list raises the
division error. -/
theorem C10_division_witness :
    RAGEvaluator.evaluate_answers sampleEngine
        [{ question := "What is FastAPI?", expected_keywords := [] }] =
      .error "ZeroDivisionError: division by zero" :=
  (C10_keyword_score_division_unguarded sampleEngine
      [{ question := "What is FastAPI?", expected_keywords := [] }]).2
    ⟨_, List.mem_cons_self _ _, rfl⟩

end RagSpec
